import Mathlib

/-!
# GLMaze renderer core (`drawer.c`): post-processing chain, mesh layout,
stereo hooks, key dispatch, Gaussian kernel and screenshot numbering

A shallow embedding of the functions of `src/drawer.c`.  OpenGL, SDL and DevIL
are external: calls into them are recorded as data (the commands a function
issues), handles are natural numbers, and C behaviour that the standard leaves
undefined (a write past the end of an array, reading an indeterminate slot,
signed overflow) is an explicit `Fault`.
-/

namespace GLMaze

/-! ## Data model -/

/-- Undefined behaviour made visible. -/
inductive Fault where
  /-- A write to `array[index]` where the array has `length` elements. -/
  | out_of_bounds_write (index length : Nat)
  /-- A read of `array[index]` where the array has `length` elements. -/
  | out_of_bounds_read (index length : Nat)
  /-- A read of an array slot that was never written. -/
  | indeterminate_read (index : Nat)
  /-- Incrementing an `int` that holds `INT_MAX`. -/
  | signed_overflow
  deriving DecidableEq, Repr

/-- The `struct Rendertarget` of drawer.c: framebuffer handle and color image handle. -/
structure Rendertarget where
  buffer : Nat
  image : Nat
  deriving DecidableEq, Repr

/-- The `struct PostProcessPass` of drawer.c; `enabled` is a one-bit field. -/
structure PostProcessPass where
  shader : Nat
  program : Nat
  key : Int
  enabled : Bool
  deriving DecidableEq, Repr

/-- Capacity of the global array `pp_passes[16]`. -/
def PP_PASSES_CAPACITY : Nat := 16

/-- Modelled from the spec: the `enum Render3DMode` of drawer.h, which is not among the
sources; the spec gives the states Off, Anaglyph, SideBySide in cycling order. -/
def RENDER_3D_OFF : Nat := 0

/-- Modelled from the spec: second state of `enum Render3DMode` (drawer.h is absent). -/
def RENDER_3D_ANAGLYPH : Nat := 1

/-- Modelled from the spec: third state of `enum Render3DMode` (drawer.h is absent). -/
def RENDER_3D_SIDEBYSIDE : Nat := 2

/-- Modelled from the spec: number of states of `enum Render3DMode` (drawer.h is absent). -/
def RENDER_3D_MODES_COUNT : Nat := 3

/-- The globals of drawer.c that the embedded functions read or write.
`pp_passes` holds the first `pp_passes_count` entries of the array `pp_passes[16]`,
so `pp_passes_count` is its length. -/
structure DrawerState where
  pp_passes : List PostProcessPass
  pp_draw_targets : Rendertarget × Rendertarget
  pp_program : Nat
  render_3d_mode : Nat
  screen_size : Int × Int
  deriving DecidableEq, Repr

/-- The global `pp_passes_count`. -/
def DrawerState.pp_passes_count (st : DrawerState) : Nat := st.pp_passes.length

/-! ## OpenGL commands -/

/-- The value of `GL_DEPTH_BUFFER_BIT` in the OpenGL headers. -/
def GL_DEPTH_BUFFER_BIT : Nat := 0x00000100

/-- The value of `GL_COLOR_BUFFER_BIT` in the OpenGL headers. -/
def GL_COLOR_BUFFER_BIT : Nat := 0x00004000

/-- Where a vertex attribute pointer or an element pointer starts. -/
inductive PointerBase where
  /-- `(GLfloat*)NULL`: an offset into the bound buffer object. -/
  | null
  /-- `data->vertices`: host memory. -/
  | vertices
  /-- `data->indices`: host memory. -/
  | indices
  deriving DecidableEq, Repr

/-- Buffer binding points used by drawer.c. -/
inductive BufferTarget where
  | GL_ARRAY_BUFFER
  | GL_ELEMENT_ARRAY_BUFFER
  deriving DecidableEq, Repr

/-- The OpenGL calls issued by the embedded functions, with their arguments.
An attribute location is stood for by the attribute name it is looked up with;
a pointer is a base and an offset counted in floats. -/
inductive GLCall where
  | glUseProgram (program : Nat)
  | glBindFramebuffer (buffer : Nat)
  | glBindTexture (image : Nat)
  | glClear (mask : Nat)
  | glColorMask (red green blue alpha : Bool)
  | glViewport (x y width height : Int)
  | glBindBuffer (target : BufferTarget) (buffer : Nat)
  | glVertexAttribPointer (name : String) (size : Nat) (stride : Nat)
      (base : PointerBase) (offset : Nat)
  | glEnableVertexAttribArray (name : String)
  | glDrawElements (count : Nat) (base : PointerBase)
  | draw_screen_square
  deriving DecidableEq, Repr

/-! ## Post-processing chain: `drawer_postprocess_pass_add`, `drawer_do_postprocess` -/

/-- Function `drawer_postprocess_pass_add` (drawer.c 230-239): the new pass goes to
`pp_passes[pp_passes_count++]` with the given toggle key and `enabled = 1`.
`shader` and `program` are the handles the driver returns. -/
def drawer_postprocess_pass_add (st : DrawerState) (shader program : Nat) (toggle_key : Int) :
    Except Fault DrawerState :=
  if st.pp_passes_count < PP_PASSES_CAPACITY then
    .ok { st with pp_passes := st.pp_passes ++
      [{ shader := shader, program := program, key := toggle_key, enabled := true }] }
  else
    .error (.out_of_bounds_write st.pp_passes_count PP_PASSES_CAPACITY)

/-- A local array of `GLuint`; a slot is `none` until it is written. -/
abbrev LocalArray := List (Option Nat)

/-- The assignment `array[index] = value`. -/
def array_write (array : LocalArray) (index value : Nat) : Except Fault LocalArray :=
  if index < array.length then .ok (array.set index (some value))
  else .error (.out_of_bounds_write index array.length)

/-- The value of `array[index]`. -/
def array_read (array : LocalArray) (index : Nat) : Except Fault Nat :=
  match array[index]? with
  | some (some value) => .ok value
  | some none => .error (.indeterminate_read index)
  | none => .error (.out_of_bounds_read index array.length)

/-- The first loop of `drawer_do_postprocess` (drawer.c 249-253), over the passes still
to visit: `if(p->enabled) enabled_passes[enabled_passes_count++] = p->program;`. -/
def collect_enabled : List PostProcessPass → LocalArray → Nat → Except Fault (LocalArray × Nat)
  | [], enabled_passes, enabled_passes_count => .ok (enabled_passes, enabled_passes_count)
  | p :: rest, enabled_passes, enabled_passes_count =>
    if p.enabled then
      match array_write enabled_passes enabled_passes_count p.program with
      | .ok written => collect_enabled rest written (enabled_passes_count + 1)
      | .error fault => .error fault
    else collect_enabled rest enabled_passes enabled_passes_count

/-- The default substitution of `drawer_do_postprocess` (drawer.c 255-259). -/
def substitute_default (pp_program : Nat) (enabled_passes : LocalArray)
    (enabled_passes_count : Nat) : Except Fault (LocalArray × Nat) :=
  if enabled_passes_count = 0 then
    match array_write enabled_passes 0 pp_program with
    | .ok written => .ok (written, 1)
    | .error fault => .error fault
  else .ok (enabled_passes, enabled_passes_count)

/-- One iteration of the second loop of `drawer_do_postprocess` as it reaches the driver:
the program made active, the render target `draw` whose framebuffer is bound for drawing
and the render target `read` whose image is bound as input. -/
structure PassCall where
  program : Nat
  draw : Rendertarget
  read : Rendertarget
  deriving DecidableEq, Repr

/-- The statements of drawer.c 272-277 for one pass. -/
def PassCall.commands (c : PassCall) : List GLCall :=
  [.glUseProgram c.program, .glBindFramebuffer c.draw.buffer, .glBindTexture c.read.image,
   .glClear (GL_COLOR_BUFFER_BIT ||| GL_DEPTH_BUFFER_BIT), .draw_screen_square]

/-- The OpenGL commands of a sequence of passes, in the order they are issued. -/
def postprocess_commands (calls : List PassCall) : List GLCall :=
  calls.flatMap PassCall.commands

/-- The second loop of `drawer_do_postprocess` (drawer.c 261-278).  `remaining` is
`enabled_passes_count - pass`, the number of iterations still to run; `read` and `draw`
are the values of the local variables when the iteration starts. -/
def run_passes (window : Rendertarget) (enabled_passes : LocalArray) (enabled_passes_count : Nat) :
    Nat → Nat → Rendertarget → Rendertarget → Except Fault (List PassCall)
  | 0, _, _, _ => .ok []
  | remaining + 1, pass, read, draw =>
    let swapped : Rendertarget × Rendertarget := if pass ≠ 0 then (draw, read) else (read, draw)
    let read1 := swapped.1
    let draw1 := if (pass : Int) = (enabled_passes_count : Int) - 1 then window else swapped.2
    match array_read enabled_passes pass with
    | .error fault => .error fault
    | .ok program =>
      match run_passes window enabled_passes enabled_passes_count remaining (pass + 1) read1 draw1 with
      | .error fault => .error fault
      | .ok calls => .ok ({ program := program, draw := draw1, read := read1 } :: calls)

/-- The local `struct Rendertarget window = {0, 0}`. -/
def window : Rendertarget := { buffer := 0, image := 0 }

/-- Function `drawer_do_postprocess` (drawer.c 241-279): the passes it runs, in order.
The local array `enabled_passes` is declared with `pp_passes_count` elements. -/
def drawer_do_postprocess (st : DrawerState) : Except Fault (List PassCall) :=
  let enabled_passes : LocalArray := List.replicate st.pp_passes_count none
  match collect_enabled st.pp_passes enabled_passes 0 with
  | .error fault => .error fault
  | .ok (collected, count) =>
    match substitute_default st.pp_program collected count with
    | .error fault => .error fault
    | .ok (chain, enabled_passes_count) =>
      run_passes window chain enabled_passes_count enabled_passes_count 0
        st.pp_draw_targets.1 st.pp_draw_targets.2

/-- The chain of the spec before default substitution: the programs of the passes with
`enabled` set, in registration order. -/
def spec_enabled_programs (passes : List PostProcessPass) : List Nat :=
  (passes.filter (fun p => p.enabled)).map (fun p => p.program)

/-! ## Mesh renderer: `drawer_draw_mesh` -/

/-- The vertex-format flag values `VERTEX_POSITION`, `VERTEX_NORMAL`, `VERTEX_TEXCOORD`.
They are declared in mesh.h, which is not among the sources, so they are a parameter. -/
structure VertexFlags where
  VERTEX_POSITION : Nat
  VERTEX_NORMAL : Nat
  VERTEX_TEXCOORD : Nat
  deriving DecidableEq, Repr

/-- The value of `sizeof(GLfloat)`. -/
def SIZEOF_GLFLOAT : Nat := 4

/-- The fields of `Mesh` that `drawer_draw_mesh` reads: the format bitmask, the index count
and, when the mesh has buffer objects, their handles `(vertex_buffer, index_buffer)`. -/
structure Mesh where
  vertex_format : Nat
  indices_count : Nat
  vbo : Option (Nat × Nat)
  deriving DecidableEq, Repr

/-- The C condition `mesh->vertex_format & FLAG`. -/
def has_flag (vertex_format flag : Nat) : Bool := (vertex_format &&& flag) != 0

/-- The locals of `drawer_draw_mesh` after drawer.c 157-174: offsets in floats,
`stride` in bytes. -/
structure VertexLayout where
  position_offset : Nat
  normal_offset : Nat
  texcoord_offset : Nat
  stride : Nat
  deriving DecidableEq, Repr

/-- The stride and offset computation of `drawer_draw_mesh` (drawer.c 157-174). -/
def vertex_layout (flags : VertexFlags) (vertex_format : Nat) : VertexLayout :=
  let stride := 0
  let position_offset := 0
  let normal_offset := 0
  let texcoord_offset := 0
  let (position_offset, stride) :=
    if has_flag vertex_format flags.VERTEX_POSITION then (stride, stride + 3)
    else (position_offset, stride)
  let (normal_offset, stride) :=
    if has_flag vertex_format flags.VERTEX_NORMAL then (stride, stride + 3)
    else (normal_offset, stride)
  let (texcoord_offset, stride) :=
    if has_flag vertex_format flags.VERTEX_TEXCOORD then (stride, stride + 2)
    else (texcoord_offset, stride)
  let stride := stride * SIZEOF_GLFLOAT
  { position_offset := position_offset, normal_offset := normal_offset,
    texcoord_offset := texcoord_offset, stride := stride }

/-- The data-source selection of `drawer_draw_mesh` (drawer.c 179-203): the binding calls,
the base of the attribute pointers, the base of the element pointer and the new value of
the global `vbo_bound`. -/
def select_source (mesh : Mesh) (vbo_bound : Bool) :
    List GLCall × PointerBase × PointerBase × Bool :=
  match mesh.vbo with
  | some (vertex_buffer, index_buffer) =>
    ([.glBindBuffer .GL_ARRAY_BUFFER vertex_buffer,
      .glBindBuffer .GL_ELEMENT_ARRAY_BUFFER index_buffer], .null, .null, true)
  | none =>
    if vbo_bound then
      ([.glBindBuffer .GL_ARRAY_BUFFER 0, .glBindBuffer .GL_ELEMENT_ARRAY_BUFFER 0],
        .vertices, .indices, false)
    else ([], .vertices, .indices, vbo_bound)

/-- The attribute set-up of `drawer_draw_mesh` (drawer.c 205-225). -/
def attribute_calls (flags : VertexFlags) (vertex_format : Nat) (layout : VertexLayout)
    (base : PointerBase) : List GLCall :=
  (if has_flag vertex_format flags.VERTEX_POSITION then
    [.glVertexAttribPointer "in_position" 3 layout.stride base layout.position_offset,
     .glEnableVertexAttribArray "in_position"] else []) ++
  (if has_flag vertex_format flags.VERTEX_NORMAL then
    [.glVertexAttribPointer "in_normal" 3 layout.stride base layout.normal_offset,
     .glEnableVertexAttribArray "in_normal"] else []) ++
  (if has_flag vertex_format flags.VERTEX_TEXCOORD then
    [.glVertexAttribPointer "in_texcoord" 2 layout.stride base layout.texcoord_offset,
     .glEnableVertexAttribArray "in_texcoord"] else [])

/-- Function `drawer_draw_mesh` (drawer.c 155-228): the OpenGL calls it issues and the new value of
the global `vbo_bound`. -/
def drawer_draw_mesh (flags : VertexFlags) (mesh : Mesh) (vbo_bound : Bool) :
    List GLCall × Bool :=
  let layout := vertex_layout flags mesh.vertex_format
  let (binds, base, element_base, bound) := select_source mesh vbo_bound
  (binds ++ attribute_calls flags mesh.vertex_format layout base ++
    [.glDrawElements mesh.indices_count element_base], bound)

/-- One `glVertexAttribPointer` call: attribute name, component count, byte stride and
offset in floats from the start of a vertex. -/
structure AttribBinding where
  name : String
  size : Nat
  stride : Nat
  offset : Nat
  deriving DecidableEq, Repr

/-- The `glVertexAttribPointer` calls in a command list, in order. -/
def attrib_bindings : List GLCall → List AttribBinding
  | [] => []
  | .glVertexAttribPointer name size stride _ offset :: rest =>
    { name := name, size := size, stride := stride, offset := offset } :: attrib_bindings rest
  | _ :: rest => attrib_bindings rest

/-- The layout as the spec words it: the attributes in the fixed order Position, Normal,
Texcoord with component counts 3, 3, 2. -/
def spec_attributes (flags : VertexFlags) : List (String × Nat × Nat) :=
  [("in_position", 3, flags.VERTEX_POSITION), ("in_normal", 3, flags.VERTEX_NORMAL),
   ("in_texcoord", 2, flags.VERTEX_TEXCOORD)]

/-- The attributes present in a vertex format, as `(name, component count)`, in the fixed
order of the spec. -/
def spec_present (flags : VertexFlags) (vertex_format : Nat) : List (String × Nat) :=
  ((spec_attributes flags).filter (fun a => has_flag vertex_format a.2.2)).map
    (fun a => (a.1, a.2.1))

/-- The stride of the spec, in floats: the sum of the component counts of the attributes
present. -/
def spec_stride (flags : VertexFlags) (vertex_format : Nat) : Nat :=
  ((spec_present flags vertex_format).map (fun a => a.2)).sum

/-- The bindings of the spec: each attribute present is bound at the sum of the component
counts of the present attributes before it (`before`), with a common byte stride. -/
def spec_bindings (stride : Nat) : Nat → List (String × Nat) → List AttribBinding
  | _, [] => []
  | before, (name, size) :: rest =>
    { name := name, size := size, stride := stride, offset := before } ::
      spec_bindings stride (before + size) rest

/-! ## Stereo hooks: `drawer_3d_left`, `drawer_3d_right` -/

/-- Function `drawer_3d_left` (drawer.c 325-333): the OpenGL calls it issues. -/
def drawer_3d_left (render_3d_mode : Nat) (screen_size : Int × Int) : List GLCall :=
  (if render_3d_mode = RENDER_3D_ANAGLYPH then
    [.glColorMask true false false false, .glClear GL_DEPTH_BUFFER_BIT] else []) ++
  (if render_3d_mode = RENDER_3D_SIDEBYSIDE then
    [.glViewport 0 0 (Int.tdiv screen_size.1 2) screen_size.2] else [])

/-- Function `drawer_3d_right` (drawer.c 335-343): the OpenGL calls it issues. -/
def drawer_3d_right (render_3d_mode : Nat) (screen_size : Int × Int) : List GLCall :=
  (if render_3d_mode = RENDER_3D_ANAGLYPH then
    [.glColorMask false false true false, .glClear GL_DEPTH_BUFFER_BIT] else []) ++
  (if render_3d_mode = RENDER_3D_SIDEBYSIDE then
    [.glViewport (Int.tdiv screen_size.1 2) 0 (Int.tdiv screen_size.1 2) screen_size.2] else [])

/-- The color channels that can be written: the arguments of the last `glColorMask`. -/
structure ColorMask where
  red : Bool
  green : Bool
  blue : Bool
  alpha : Bool
  deriving DecidableEq, Repr

/-- The color write mask in force after a command list, starting from `mask`. -/
def color_mask_after (mask : ColorMask) : List GLCall → ColorMask
  | [] => mask
  | .glColorMask r g b a :: rest =>
    color_mask_after { red := r, green := g, blue := b, alpha := a } rest
  | _ :: rest => color_mask_after mask rest

/-! ## Key dispatch: `drawer_do_events` -/

/-- The SDL key codes that `drawer_do_events` compares with.  They come from the SDL
headers, which are not among the sources, so they are a parameter. -/
structure KeyCodes where
  SDLK_ESCAPE : Int
  SDLK_r : Int
  SDLK_F5 : Int
  SDLK_F12 : Int
  deriving DecidableEq, Repr

/-- The key codes of SDL 1.2 (`SDL_keysym.h`). -/
def sdl_keys : KeyCodes :=
  { SDLK_ESCAPE := 27, SDLK_r := 114, SDLK_F5 := 286, SDLK_F12 := 293 }

/-- An event as `drawer_do_events` sees it: its type and, for a key press, the key code
`ev.key.keysym.sym`. -/
inductive SDL_Event where
  | SDL_QUIT
  | SDL_KEYDOWN (sym : Int)
  | other
  deriving DecidableEq, Repr

/-- The file-writing helpers that `drawer_do_events` calls. -/
inductive HostAction where
  | write_glinfo
  | screenshot
  deriving DecidableEq, Repr

/-- What a call of `drawer_do_events` leaves behind: its return value, the globals, the
helpers it called (in order) and the events still in the queue. -/
structure EventsResult where
  result : Int
  state : DrawerState
  actions : List HostAction
  pending : List SDL_Event
  deriving DecidableEq, Repr

/-- The pass-toggle loop of `drawer_do_events` (drawer.c 297-301):
`if(p->key == key) p->enabled ^= 1;` for every registered pass. -/
def toggle_passes (key : Int) : List PostProcessPass → List PostProcessPass
  | [] => []
  | p :: rest =>
    (if p.key = key then { p with enabled := xor p.enabled true } else p) ::
      toggle_passes key rest

/-- Function `drawer_do_events` (drawer.c 281-306) run on the queue of pending events. -/
def drawer_do_events (keys : KeyCodes) : DrawerState → List SDL_Event → EventsResult
  | st, [] => { result := 1, state := st, actions := [], pending := [] }
  | st, .SDL_QUIT :: rest => { result := 0, state := st, actions := [], pending := rest }
  | st, .SDL_KEYDOWN key :: rest =>
    if key = keys.SDLK_ESCAPE then { result := 0, state := st, actions := [], pending := rest }
    else if key = keys.SDLK_r then
      drawer_do_events keys
        { st with render_3d_mode := (st.render_3d_mode + 1) % RENDER_3D_MODES_COUNT } rest
    else if key = keys.SDLK_F5 then
      let r := drawer_do_events keys st rest
      { r with actions := .write_glinfo :: r.actions }
    else if key = keys.SDLK_F12 then
      let r := drawer_do_events keys st rest
      { r with actions := .screenshot :: r.actions }
    else
      drawer_do_events keys { st with pp_passes := toggle_passes key st.pp_passes } rest
  | st, .other :: rest => drawer_do_events keys st rest

/-- Whether a key press gets to the pass-toggle branch of `drawer_do_events`. -/
def reaches_toggle (keys : KeyCodes) (key : Int) : Bool :=
  key != keys.SDLK_ESCAPE && key != keys.SDLK_r && key != keys.SDLK_F5 && key != keys.SDLK_F12

/-! ## Screenshot numbering: `screenshot` -/

/-- The largest value of a 32-bit `int`. -/
def INT_MAX : Nat := 2147483647

/-- The name written by `sprintf(filename, "Screenshot%d.jpg", index)` for a non-negative `index`. -/
def screenshot_filename (index : Nat) : String :=
  "Screenshot" ++ toString index ++ ".jpg"

/-- The search loop of `screenshot` (drawer.c 489-495).  `can_open name` tells whether
`fopen(name, "r")` succeeds.  `budget` is the number of values the `int index` can still
take, `INT_MAX + 1 - index`; when it is used up, `index++` has overflowed. -/
def find_unused_index (can_open : String → Bool) : Nat → Nat → Except Fault Nat
  | 0, _ => .error .signed_overflow
  | budget + 1, index =>
    if can_open (screenshot_filename index) then find_unused_index can_open budget (index + 1)
    else .ok index

/-- Function `screenshot` (drawer.c 473-508): the file name handed to `ilSaveImage`. -/
def screenshot (can_open : String → Bool) : Except Fault String :=
  match find_unused_index can_open (INT_MAX + 1) 0 with
  | .ok index => .ok (screenshot_filename index)
  | .error fault => .error fault

/-! ## Gaussian kernel: `calc_gauss_values` -/

/-- The constant `sigma` of `calc_gauss_values`. -/
noncomputable def sigma : ℝ := 4

/-- The constant `M_E` of math.h, as a real number. -/
noncomputable def M_E : ℝ := Real.exp 1

/-- The constant `M_PI` of math.h, as a real number. -/
noncomputable def M_PI : ℝ := Real.pi

/-- The weight expression of `calc_gauss_values` (drawer.c 447) over the reals:
`(1.0/sqrtf(2.0*M_PI*sigma*sigma))*powf(M_E,-((x*x)/(2.0*sigma*sigma)))`. -/
noncomputable def gauss_weight (x : ℝ) : ℝ :=
  (1 / Real.sqrt (2 * M_PI * sigma * sigma)) * M_E ^ (-((x * x) / (2 * sigma * sigma)))

/-- Function `calc_gauss_values` (drawer.c 438-450): the 11 pairs `(x, weight)` it uploads, for
`i = 0 .. 10` and `x = i - 5.0`, over the reals. -/
noncomputable def calc_gauss_values : List (ℝ × ℝ) :=
  (List.range 11).map (fun (i : Nat) => ((i : ℝ) - 5, gauss_weight ((i : ℝ) - 5)))

/-- The sum of the 11 uploaded weights. -/
noncomputable def gauss_weight_sum : ℝ := (calc_gauss_values.map (fun v => v.2)).sum

/-! ## The chain that `drawer_do_postprocess` runs, in closed form -/

/-- The active chain of the spec (4.4 step 1): the programs of the enabled passes in
registration order or, when there is none, the built-in default program alone. -/
def spec_active_chain (st : DrawerState) : List Nat :=
  if spec_enabled_programs st.pp_passes = [] then [st.pp_program] else spec_enabled_programs st.pp_passes

/-- Pass `i` of a chain as the spec describes it: it reads `A` when `i` is
even and `B` when odd, and draws to the window when it is the last pass and to the other
ping-pong target otherwise. -/
def spec_pass_call (A B : Rendertarget) (chain : List Nat) (i : Nat) : PassCall :=
  { program := chain.getD i 0,
    draw := if i + 1 = chain.length then window else if i % 2 = 0 then B else A,
    read := if i % 2 = 0 then A else B }

/-- The effect of a key press on the pass list as the spec words it: exactly the passes
whose toggle key equals the key code have their `enabled` flag flipped. -/
def spec_flip_matching (key : Int) (passes : List PostProcessPass) : List PostProcessPass :=
  passes.map (fun p => if p.key = key then { p with enabled := !p.enabled } else p)

/-- A directory in which exactly `Screenshot0.jpg` ... `Screenshot4.jpg` can be opened. -/
def five_screenshots (name : String) : Bool :=
  ["Screenshot0.jpg", "Screenshot1.jpg", "Screenshot2.jpg", "Screenshot3.jpg",
   "Screenshot4.jpg"].contains name

/-- A directory in which every file whose name has at most 24 characters can be opened
and no other: it holds `Screenshot<n>.jpg` for `n` up to 9999999999 and for no larger `n`. -/
def short_names_exist (name : String) : Bool := decide (name.length ≤ 24)

/-! ## Lemmas on the post-processing loops -/

theorem array_write_append (front back : LocalArray) (slot : Option Nat) (value : Nat) :
    array_write (front ++ slot :: back) front.length value = .ok (front ++ some value :: back) := by
  simp [array_write]

theorem spec_enabled_programs_cons (p : PostProcessPass) (rest : List PostProcessPass) :
    spec_enabled_programs (p :: rest) =
      if p.enabled then p.program :: spec_enabled_programs rest else spec_enabled_programs rest := by
  cases h : p.enabled <;> simp [spec_enabled_programs, List.filter, h]

theorem spec_enabled_programs_length_le (passes : List PostProcessPass) :
    (spec_enabled_programs passes).length ≤ passes.length := by
  simp only [spec_enabled_programs, List.length_map]
  exact List.length_filter_le _ _

theorem collect_enabled_append (passes : List PostProcessPass) :
    ∀ (front back : LocalArray), (spec_enabled_programs passes).length ≤ back.length →
      collect_enabled passes (front ++ back) front.length =
        .ok (front ++ (spec_enabled_programs passes).map some ++
              back.drop (spec_enabled_programs passes).length,
             front.length + (spec_enabled_programs passes).length) := by
  induction passes with
  | nil => intro front back _; simp [collect_enabled, spec_enabled_programs]
  | cons p rest ih =>
    intro front back hlen
    rw [spec_enabled_programs_cons] at hlen ⊢
    cases hp : p.enabled with
    | false =>
      simp only [hp, Bool.false_eq_true, if_false] at hlen ⊢
      simp only [collect_enabled, hp, Bool.false_eq_true, if_false]
      exact ih front back hlen
    | true =>
      simp only [hp, if_true, List.length_cons] at hlen ⊢
      match back, hlen with
      | slot :: back1, hlen =>
        simp only [collect_enabled, hp, if_true, array_write_append]
        have h := ih (front ++ [some p.program]) back1 (by simpa using hlen)
        simp only [List.length_append, List.length_singleton, List.append_assoc,
          List.singleton_append] at h
        rw [h]
        simp [Nat.add_assoc, Nat.add_comm 1]

theorem array_read_chain (chain : List Nat) (back : LocalArray) (pass : Nat)
    (h : pass < chain.length) :
    array_read (chain.map some ++ back) pass = .ok (chain.getD pass 0) := by
  have h1 : (chain.map some ++ back)[pass]? = some (some chain[pass]) := by
    rw [List.getElem?_append_left (by simpa using h)]
    simp [h]
  simp [array_read, h1, List.getD, List.getElem?_eq_getElem h]

theorem run_passes_eq (A B : Rendertarget) (chain : List Nat) (back : LocalArray) :
    ∀ (remaining pass : Nat) (read draw : Rendertarget),
      pass + remaining = chain.length →
      (remaining ≠ 0 → (if pass ≠ 0 then (draw, read) else (read, draw)) =
        (if pass % 2 = 0 then A else B, if pass % 2 = 0 then B else A)) →
      run_passes window (chain.map some ++ back) chain.length remaining pass read draw =
        .ok ((List.range' pass remaining).map (spec_pass_call A B chain)) := by
  intro remaining
  induction remaining with
  | zero => intro pass read draw _ _; simp [run_passes]
  | succ r ih =>
    intro pass read draw hsum hentry
    have hswap := hentry (Nat.succ_ne_zero r)
    have hlt : pass < chain.length := by omega
    have hlast : ((pass : Int) = (chain.length : Int) - 1) ↔ pass + 1 = chain.length := by omega
    simp only [run_passes, array_read_chain chain back pass hlt, hswap]
    rw [ih (pass + 1) _ _ (by omega)]
    · simp only [List.range'_succ, List.map_cons, spec_pass_call, hlast]
    · intro hr
      have hnl : ¬ ((pass : Int) = (chain.length : Int) - 1) := by omega
      simp only [hnl, if_false, Nat.succ_ne_zero, ne_eq, not_false_eq_true, if_true]
      rcases Nat.mod_two_eq_zero_or_one pass with h | h
      · have h2 : (pass + 1) % 2 = 1 := by omega
        simp [h, h2]
      · have h2 : (pass + 1) % 2 = 0 := by omega
        simp [h, h2]

theorem drawer_do_postprocess_empty (st : DrawerState) (h : st.pp_passes = []) :
    drawer_do_postprocess st = .error (.out_of_bounds_write 0 0) := by
  simp [drawer_do_postprocess, DrawerState.pp_passes_count, h, collect_enabled,
    substitute_default, array_write]

theorem drawer_do_postprocess_eq (st : DrawerState) (h : st.pp_passes ≠ []) :
    drawer_do_postprocess st =
      .ok ((List.range (spec_active_chain st).length).map
        (spec_pass_call st.pp_draw_targets.1 st.pp_draw_targets.2 (spec_active_chain st))) := by
  have hc := collect_enabled_append st.pp_passes []
    (List.replicate st.pp_passes.length none)
    (by simpa using spec_enabled_programs_length_le st.pp_passes)
  simp only [List.nil_append, List.length_nil, Nat.zero_add] at hc
  simp only [drawer_do_postprocess, DrawerState.pp_passes_count, hc]
  by_cases he : spec_enabled_programs st.pp_passes = []
  · obtain ⟨n, hn⟩ : ∃ n, st.pp_passes.length = n + 1 :=
      Nat.exists_eq_succ_of_ne_zero (by simpa using h)
    have hrun := run_passes_eq st.pp_draw_targets.1 st.pp_draw_targets.2 [st.pp_program]
      (List.replicate n none) 1 0 st.pp_draw_targets.1 st.pp_draw_targets.2 (by simp)
      (by simp)
    simp only [List.map_cons, List.map_nil, List.singleton_append, List.length_singleton]
      at hrun
    simp only [he, hn, List.map_nil, List.length_nil, List.drop_zero, List.nil_append,
      substitute_default, if_true, array_write, List.length_replicate, Nat.zero_lt_succ,
      List.replicate_succ, List.set_cons_zero, spec_active_chain, List.length_singleton,
      List.length_cons]
    rw [hrun]
    simp [List.range_eq_range']
  · have hk : (spec_enabled_programs st.pp_passes).length ≠ 0 := by simpa using he
    have hrun := run_passes_eq st.pp_draw_targets.1 st.pp_draw_targets.2
      (spec_enabled_programs st.pp_passes)
      (List.drop (spec_enabled_programs st.pp_passes).length
        (List.replicate st.pp_passes.length none))
      (spec_enabled_programs st.pp_passes).length 0 st.pp_draw_targets.1 st.pp_draw_targets.2
      (by simp) (by simp)
    simp only [substitute_default, hk, if_false, hrun, spec_active_chain, he]
    simp [List.range_eq_range']

theorem map_getD_range (l : List Nat) :
    (List.range l.length).map (fun i => l.getD i 0) = l := by
  apply List.ext_getElem
  · simp
  · intro i h1 h2
    simp [List.getD, List.getElem?_eq_getElem h2]

theorem spec_active_chain_of_enabled (st : DrawerState) (h : spec_enabled_programs st.pp_passes ≠ []) :
    spec_active_chain st = spec_enabled_programs st.pp_passes := by
  simp [spec_active_chain, h]

theorem spec_enabled_programs_eq_nil (passes : List PostProcessPass)
    (h : ∀ p ∈ passes, p.enabled = false) : spec_enabled_programs passes = [] := by
  simp only [spec_enabled_programs, List.map_eq_nil_iff, List.filter_eq_nil_iff]
  intro p hp
  simp [h p hp]

theorem postprocess_commands_draw_count (calls : List PassCall) :
    (postprocess_commands calls).count .draw_screen_square = calls.length := by
  induction calls with
  | nil => rfl
  | cons c rest ih =>
    simp only [postprocess_commands, List.flatMap_cons, List.count_append, List.length_cons]
      at ih ⊢
    rw [ih]
    simp [PassCall.commands, List.count_cons, Nat.add_comm]

/-! ## Claims on the post-processing chain -/

/-- C1: with at most 16 registered passes of which `N ≥ 1` are enabled, and ping-pong
targets distinct from each other and from the window, one run of `drawer_do_postprocess`
runs exactly `N` passes and issues exactly `N` full-screen draw commands (one per enabled
pass, in registration order), the `N`-th draws to the window, and no call draws to the
render target it reads. -/
theorem postprocess_enabled_chain (st : DrawerState) (N : Nat)
    (_hcap : st.pp_passes_count ≤ PP_PASSES_CAPACITY)
    (hN : (st.pp_passes.filter (fun p => p.enabled)).length = N) (h1 : 1 ≤ N)
    (hAB : st.pp_draw_targets.1 ≠ st.pp_draw_targets.2)
    (hA : st.pp_draw_targets.1 ≠ window) (hB : st.pp_draw_targets.2 ≠ window) :
    ∃ calls, drawer_do_postprocess st = .ok calls ∧ calls.length = N ∧
      (postprocess_commands calls).count .draw_screen_square = N ∧
      calls.map (fun c => c.program) = spec_enabled_programs st.pp_passes ∧
      calls[N - 1]?.map (fun c => c.draw) = some window ∧
      ∀ c ∈ calls, c.read ≠ c.draw := by
  have hlen : (spec_enabled_programs st.pp_passes).length = N := by
    simpa [spec_enabled_programs] using hN
  have hne : spec_enabled_programs st.pp_passes ≠ [] := by
    intro h; rw [h] at hlen; simp at hlen; omega
  have hpass : st.pp_passes ≠ [] := by
    intro h; apply hne; simp [spec_enabled_programs, h]
  have hchain := spec_active_chain_of_enabled st hne
  refine ⟨_, drawer_do_postprocess_eq st hpass, ?_, ?_, ?_, ?_, ?_⟩
  · simp [hchain, hlen]
  · rw [postprocess_commands_draw_count]
    simp [hchain, hlen]
  · rw [hchain, List.map_map]
    exact map_getD_range _
  · have hlt : N - 1 < N := by omega
    have hsucc : N - 1 + 1 = N := by omega
    simp [hchain, hlen, List.getElem?_range hlt, spec_pass_call, hsucc]
  · intro c hc
    simp only [List.mem_map, List.mem_range] at hc
    obtain ⟨i, _, rfl⟩ := hc
    simp only [spec_pass_call]
    split_ifs <;> first | assumption | exact hAB | exact fun h => hAB h.symm

/-- C1 at a concrete state: three registered passes, the first and the third enabled. -/
theorem postprocess_enabled_chain_witness :
    ∃ calls, drawer_do_postprocess
        { pp_passes := [⟨11, 21, 49, true⟩, ⟨12, 22, 50, false⟩, ⟨13, 23, 51, true⟩],
          pp_draw_targets := (⟨1, 5⟩, ⟨2, 6⟩), pp_program := 9,
          render_3d_mode := 0, screen_size := (1280, 800) } = .ok calls ∧
      calls.length = 2 ∧
      (postprocess_commands calls).count .draw_screen_square = 2 ∧
      calls.map (fun c => c.program) = spec_enabled_programs
        [⟨11, 21, 49, true⟩, ⟨12, 22, 50, false⟩, ⟨13, 23, 51, true⟩] ∧
      calls[2 - 1]?.map (fun c => c.draw) = some window ∧
      ∀ c ∈ calls, c.read ≠ c.draw :=
  postprocess_enabled_chain
    { pp_passes := [⟨11, 21, 49, true⟩, ⟨12, 22, 50, false⟩, ⟨13, 23, 51, true⟩],
      pp_draw_targets := (⟨1, 5⟩, ⟨2, 6⟩), pp_program := 9,
      render_3d_mode := 0, screen_size := (1280, 800) } 2
    (by decide) (by decide) (by decide) (by decide) (by decide) (by decide)

/-- C2: when no pass is enabled and at least one pass is registered, one run of
`drawer_do_postprocess` issues exactly one draw call, with `pp_program` active, drawing to
the window and reading the image of ping-pong target A; when no pass was ever registered,
the default program is stored into `enabled_passes[0]` of an array of length 0. -/
theorem postprocess_no_enabled_pass (st : DrawerState)
    (hnone : ∀ p ∈ st.pp_passes, p.enabled = false) :
    drawer_do_postprocess st =
      if st.pp_passes_count = 0 then .error (.out_of_bounds_write 0 0)
      else .ok [{ program := st.pp_program, draw := window, read := st.pp_draw_targets.1 }] := by
  by_cases h : st.pp_passes = []
  · simp [DrawerState.pp_passes_count, h, drawer_do_postprocess_empty st h]
  · have hcount : st.pp_passes_count ≠ 0 := by simpa [DrawerState.pp_passes_count] using h
    rw [drawer_do_postprocess_eq st h, if_neg hcount]
    simp [spec_active_chain, spec_enabled_programs_eq_nil st.pp_passes hnone, spec_pass_call,
      List.range_succ]

/-- C2 at the state in which no pass was ever registered. -/
theorem postprocess_no_enabled_pass_witness :
    drawer_do_postprocess
        { pp_passes := [], pp_draw_targets := (⟨1, 5⟩, ⟨2, 6⟩), pp_program := 9,
          render_3d_mode := 0, screen_size := (1280, 800) } =
      .error (.out_of_bounds_write 0 0) :=
  postprocess_no_enabled_pass
    { pp_passes := [], pp_draw_targets := (⟨1, 5⟩, ⟨2, 6⟩), pp_program := 9,
      render_3d_mode := 0, screen_size := (1280, 800) } (by simp)

theorem drawer_do_postprocess_ok_iff (st : DrawerState) :
    (∃ calls, drawer_do_postprocess st = .ok calls) ↔ st.pp_passes_count ≠ 0 := by
  constructor
  · rintro ⟨calls, hcalls⟩ h
    have hnil : st.pp_passes = [] := by simpa [DrawerState.pp_passes_count] using h
    rw [drawer_do_postprocess_empty st hnil] at hcalls
    cases hcalls
  · intro h
    have hne : st.pp_passes ≠ [] := by simpa [DrawerState.pp_passes_count] using h
    exact ⟨_, drawer_do_postprocess_eq st hne⟩

/-- C10: the run of `drawer_do_postprocess` stops at a write to `enabled_passes[0]` of an
array of length 0 exactly when `pp_passes_count` is 0 (the default substitution, drawer.c
257); with at least one pass registered every write is in bounds and the run completes. -/
theorem enabled_passes_write_in_bounds_iff (st : DrawerState) :
    (drawer_do_postprocess st = .error (.out_of_bounds_write 0 0) ↔ st.pp_passes_count = 0) ∧
    ((∃ calls, drawer_do_postprocess st = .ok calls) ↔ st.pp_passes_count ≠ 0) := by
  refine ⟨⟨?_, ?_⟩, drawer_do_postprocess_ok_iff st⟩
  · intro h
    by_contra hcount
    obtain ⟨calls, hcalls⟩ := (drawer_do_postprocess_ok_iff st).mpr hcount
    rw [hcalls] at h
    cases h
  · intro h
    exact drawer_do_postprocess_empty st (by simpa [DrawerState.pp_passes_count] using h)

/-! ## Claims on the mesh renderer, the stereo hooks and the key dispatch -/

/-- C3: for every vertex format (so for each of the 8 combinations of the flags Position,
Normal, Texcoord), the byte stride `drawer_draw_mesh` computes, divided by
`sizeof(GLfloat)`, is the sum of the component counts of the attributes present, and the
attribute pointers it hands to the driver are those of the attributes present, each at the
sum of the component counts of the present attributes before it, all with that stride. -/
theorem draw_mesh_stride_and_offsets (flags : VertexFlags) (mesh : Mesh) (vbo_bound : Bool) :
    (vertex_layout flags mesh.vertex_format).stride / SIZEOF_GLFLOAT =
      spec_stride flags mesh.vertex_format ∧
    (vertex_layout flags mesh.vertex_format).stride =
      spec_stride flags mesh.vertex_format * SIZEOF_GLFLOAT ∧
    attrib_bindings (drawer_draw_mesh flags mesh vbo_bound).1 =
      spec_bindings (spec_stride flags mesh.vertex_format * SIZEOF_GLFLOAT) 0
        (spec_present flags mesh.vertex_format) := by
  obtain ⟨fmt, count, vbo⟩ := mesh
  cases hp : has_flag fmt flags.VERTEX_POSITION <;>
  cases hn : has_flag fmt flags.VERTEX_NORMAL <;>
  cases ht : has_flag fmt flags.VERTEX_TEXCOORD <;>
  cases vbo <;> cases vbo_bound <;>
  simp [drawer_draw_mesh, vertex_layout, select_source, attribute_calls, attrib_bindings,
    spec_bindings, spec_present, spec_attributes, spec_stride, hp, hn, ht, SIZEOF_GLFLOAT]

/-- C4 (as the code has it): in Anaglyph mode `drawer_3d_left` makes only the red channel
writable and then clears the depth buffer, and `drawer_3d_right` makes only the blue
channel writable (red, green and alpha are not) and then clears the depth buffer. -/
theorem anaglyph_left_red_right_blue (screen_size : Int × Int) (mask : ColorMask) :
    drawer_3d_left RENDER_3D_ANAGLYPH screen_size =
      [.glColorMask true false false false, .glClear GL_DEPTH_BUFFER_BIT] ∧
    drawer_3d_right RENDER_3D_ANAGLYPH screen_size =
      [.glColorMask false false true false, .glClear GL_DEPTH_BUFFER_BIT] ∧
    color_mask_after mask (drawer_3d_left RENDER_3D_ANAGLYPH screen_size) =
      { red := true, green := false, blue := false, alpha := false } ∧
    color_mask_after mask (drawer_3d_right RENDER_3D_ANAGLYPH screen_size) =
      { red := false, green := false, blue := true, alpha := false } := by
  simp [drawer_3d_left, drawer_3d_right, color_mask_after, RENDER_3D_ANAGLYPH,
    RENDER_3D_SIDEBYSIDE]

/-- C4 as stated fails: after `drawer_3d_right` in Anaglyph mode the green channel is not
writable, whatever the mask was before. -/
theorem anaglyph_right_green_blue_counterexample :
    ¬ ∃ alpha, drawer_3d_right RENDER_3D_ANAGLYPH (1280, 800) =
      [.glColorMask false true true alpha, .glClear GL_DEPTH_BUFFER_BIT] := by
  rintro ⟨alpha, h⟩
  simp [drawer_3d_right, RENDER_3D_ANAGLYPH, RENDER_3D_SIDEBYSIDE] at h

theorem toggle_passes_twice (key : Int) (passes : List PostProcessPass) :
    toggle_passes key (toggle_passes key passes) = passes := by
  induction passes with
  | nil => rfl
  | cons p rest ih =>
    obtain ⟨shader, program, k, enabled⟩ := p
    by_cases h : k = key
    · simp [toggle_passes, h, ih]
    · simp [toggle_passes, h, ih]

theorem toggle_passes_eq_spec_flip_matching (key : Int) (passes : List PostProcessPass) :
    toggle_passes key passes = spec_flip_matching key passes := by
  induction passes with
  | nil => rfl
  | cons p rest ih =>
    simp only [toggle_passes, spec_flip_matching, List.map_cons] at ih ⊢
    rw [ih]
    simp

theorem drawer_do_events_toggle (keys : KeyCodes) (st : DrawerState) (key : Int)
    (rest : List SDL_Event) (h : reaches_toggle keys key = true) :
    drawer_do_events keys st (.SDL_KEYDOWN key :: rest) =
      drawer_do_events keys { st with pp_passes := toggle_passes key st.pp_passes } rest := by
  simp only [reaches_toggle, Bool.and_eq_true, bne_iff_ne, ne_eq] at h
  obtain ⟨⟨⟨h1, h2⟩, h3⟩, h4⟩ := h
  simp [drawer_do_events, h1, h2, h3, h4]

/-- C5: for every pass list and every key code that reaches the pass-toggle branch of
`drawer_do_events`, two key-down events with that key, in one call or in two calls, leave
the whole state as it was: every `enabled` flag has its original value, and the active
chain and the run of `drawer_do_postprocess` are the same as before. -/
theorem toggle_twice_restores (keys : KeyCodes) (st : DrawerState) (key : Int)
    (h : reaches_toggle keys key = true) :
    (∀ rest, drawer_do_events keys st (.SDL_KEYDOWN key :: .SDL_KEYDOWN key :: rest) =
      drawer_do_events keys st rest) ∧
    drawer_do_events keys st [.SDL_KEYDOWN key, .SDL_KEYDOWN key] =
      { result := 1, state := st, actions := [], pending := [] } ∧
    (drawer_do_events keys (drawer_do_events keys st [.SDL_KEYDOWN key]).state
      [.SDL_KEYDOWN key]).state = st ∧
    (drawer_do_events keys st [.SDL_KEYDOWN key, .SDL_KEYDOWN key]).state.pp_passes.map
      (fun p => p.enabled) = st.pp_passes.map (fun p => p.enabled) ∧
    spec_enabled_programs
      (drawer_do_events keys st [.SDL_KEYDOWN key, .SDL_KEYDOWN key]).state.pp_passes =
      spec_enabled_programs st.pp_passes ∧
    spec_active_chain (drawer_do_events keys st [.SDL_KEYDOWN key, .SDL_KEYDOWN key]).state =
      spec_active_chain st ∧
    drawer_do_postprocess
      (drawer_do_events keys st [.SDL_KEYDOWN key, .SDL_KEYDOWN key]).state =
      drawer_do_postprocess st := by
  have hrest : ∀ rest, drawer_do_events keys st
      (.SDL_KEYDOWN key :: .SDL_KEYDOWN key :: rest) = drawer_do_events keys st rest := by
    intro rest
    rw [drawer_do_events_toggle keys _ key _ h, drawer_do_events_toggle keys _ key _ h]
    simp [toggle_passes_twice]
  have h2 : drawer_do_events keys st [.SDL_KEYDOWN key, .SDL_KEYDOWN key] =
      { result := 1, state := st, actions := [], pending := [] } := by
    rw [hrest]
    simp [drawer_do_events]
  have h1 : (drawer_do_events keys (drawer_do_events keys st [.SDL_KEYDOWN key]).state
      [.SDL_KEYDOWN key]).state = st := by
    rw [drawer_do_events_toggle keys _ key _ h, drawer_do_events_toggle keys st key _ h]
    simp [drawer_do_events, toggle_passes_twice]
  refine ⟨hrest, h2, h1, ?_, ?_, ?_, ?_⟩ <;> rw [h2]

/-- C5 at a concrete state: the key `'1'` (49) toggles the first and the third pass. -/
theorem toggle_twice_restores_witness :
    drawer_do_events sdl_keys
        { pp_passes := [⟨11, 21, 49, true⟩, ⟨12, 22, 50, false⟩, ⟨13, 23, 49, false⟩],
          pp_draw_targets := (⟨1, 5⟩, ⟨2, 6⟩), pp_program := 9,
          render_3d_mode := 0, screen_size := (1280, 800) }
        [.SDL_KEYDOWN 49, .SDL_KEYDOWN 49] =
      { result := 1,
        state := { pp_passes := [⟨11, 21, 49, true⟩, ⟨12, 22, 50, false⟩, ⟨13, 23, 49, false⟩],
                   pp_draw_targets := (⟨1, 5⟩, ⟨2, 6⟩), pp_program := 9,
                   render_3d_mode := 0, screen_size := (1280, 800) },
        actions := [], pending := [] } :=
  (toggle_twice_restores sdl_keys
    { pp_passes := [⟨11, 21, 49, true⟩, ⟨12, 22, 50, false⟩, ⟨13, 23, 49, false⟩],
      pp_draw_targets := (⟨1, 5⟩, ⟨2, 6⟩), pp_program := 9,
      render_3d_mode := 0, screen_size := (1280, 800) } 49 (by decide)).2.1

/-- C9 (as the code has it): a key-down event whose key code is none of Escape, `r`, F5
and F12 flips the `enabled` flag of exactly the registered passes whose toggle key equals
the key code and leaves every other pass, and every other field of a pass, unchanged; the
events after it are then processed from that state. -/
theorem keydown_flips_matching_passes (keys : KeyCodes) (st : DrawerState) (key : Int)
    (h : reaches_toggle keys key = true) :
    (∀ rest, drawer_do_events keys st (.SDL_KEYDOWN key :: rest) =
      drawer_do_events keys
        { st with pp_passes := spec_flip_matching key st.pp_passes } rest) ∧
    drawer_do_events keys st [.SDL_KEYDOWN key] =
      { result := 1, state := { st with pp_passes := spec_flip_matching key st.pp_passes },
        actions := [], pending := [] } ∧
    (spec_flip_matching key st.pp_passes).length = st.pp_passes.length ∧
    ∀ (i : Nat) (p : PostProcessPass), st.pp_passes[i]? = some p →
      (spec_flip_matching key st.pp_passes)[i]? =
        some { p with enabled := if p.key = key then !p.enabled else p.enabled } := by
  have hrest : ∀ rest, drawer_do_events keys st (.SDL_KEYDOWN key :: rest) =
      drawer_do_events keys
        { st with pp_passes := spec_flip_matching key st.pp_passes } rest := by
    intro rest
    rw [drawer_do_events_toggle keys st key _ h, toggle_passes_eq_spec_flip_matching]
  refine ⟨hrest, ?_, by simp [spec_flip_matching], ?_⟩
  · rw [hrest]
    simp [drawer_do_events]
  · intro i p hp
    simp only [spec_flip_matching, List.getElem?_map, hp, Option.map_some', Option.some.injEq]
    split <;> rfl

/-- C9 at a concrete state: the key `'2'` (50) flips the second pass only. -/
theorem keydown_flips_matching_passes_witness :
    (drawer_do_events sdl_keys
        { pp_passes := [⟨11, 21, 49, true⟩, ⟨12, 22, 50, false⟩, ⟨13, 23, 51, true⟩],
          pp_draw_targets := (⟨1, 5⟩, ⟨2, 6⟩), pp_program := 9,
          render_3d_mode := 0, screen_size := (1280, 800) }
        [.SDL_KEYDOWN 50]).state.pp_passes =
      spec_flip_matching 50 [⟨11, 21, 49, true⟩, ⟨12, 22, 50, false⟩, ⟨13, 23, 51, true⟩] :=
  congrArg (fun r : EventsResult => r.state.pp_passes)
    (keydown_flips_matching_passes sdl_keys
      { pp_passes := [⟨11, 21, 49, true⟩, ⟨12, 22, 50, false⟩, ⟨13, 23, 51, true⟩],
        pp_draw_targets := (⟨1, 5⟩, ⟨2, 6⟩), pp_program := 9,
        render_3d_mode := 0, screen_size := (1280, 800) } 50 (by decide)).2.1

/-- C9 as stated fails: a pass registered with the toggle key `r` (114, the stereo-mode
key) keeps its `enabled` flag when a key-down event with that key is processed. -/
theorem keydown_reserved_key_counterexample :
    drawer_postprocess_pass_add
        { pp_passes := [], pp_draw_targets := (⟨1, 5⟩, ⟨2, 6⟩), pp_program := 9,
          render_3d_mode := 0, screen_size := (1280, 800) } 12 22 114 =
      .ok { pp_passes := [⟨12, 22, 114, true⟩], pp_draw_targets := (⟨1, 5⟩, ⟨2, 6⟩),
            pp_program := 9, render_3d_mode := 0, screen_size := (1280, 800) } ∧
    (drawer_do_events sdl_keys
        { pp_passes := [⟨12, 22, 114, true⟩], pp_draw_targets := (⟨1, 5⟩, ⟨2, 6⟩),
          pp_program := 9, render_3d_mode := 0, screen_size := (1280, 800) }
        [.SDL_KEYDOWN 114]).state.pp_passes = [⟨12, 22, 114, true⟩] ∧
    ¬ ((drawer_do_events sdl_keys
        { pp_passes := [⟨12, 22, 114, true⟩], pp_draw_targets := (⟨1, 5⟩, ⟨2, 6⟩),
          pp_program := 9, render_3d_mode := 0, screen_size := (1280, 800) }
        [.SDL_KEYDOWN 114]).state.pp_passes = spec_flip_matching 114 [⟨12, 22, 114, true⟩]) := by
  refine ⟨?_, by decide, by decide⟩
  simp [drawer_postprocess_pass_add, DrawerState.pp_passes_count, PP_PASSES_CAPACITY]

/-! ## Claims on the screenshot numbering -/

theorem find_unused_index_least (can_open : String → Bool) :
    ∀ (budget index k : Nat), index ≤ k → k < index + budget →
      can_open (screenshot_filename k) = false →
      (∀ j, index ≤ j → j < k → can_open (screenshot_filename j) = true) →
      find_unused_index can_open budget index = .ok k := by
  intro budget
  induction budget with
  | zero => intro index k h1 h2; omega
  | succ b ih =>
    intro index k h1 h2 hfree hused
    by_cases hk : index = k
    · subst hk
      simp [find_unused_index, hfree]
    · have hopen := hused index (Nat.le_refl _) (by omega)
      simp only [find_unused_index, hopen, if_true]
      exact ih (index + 1) k (by omega) (by omega) hfree
        (fun j hj1 hj2 => hused j (by omega) hj2)

theorem find_unused_index_overflow (can_open : String → Bool) :
    ∀ (budget index : Nat),
      (∀ j, index ≤ j → j < index + budget → can_open (screenshot_filename j) = true) →
      find_unused_index can_open budget index = .error .signed_overflow := by
  intro budget
  induction budget with
  | zero => intro index _; rfl
  | succ b ih =>
    intro index hused
    have hopen := hused index (Nat.le_refl _) (by omega)
    simp only [find_unused_index, hopen, if_true]
    exact ih (index + 1) (fun j hj1 hj2 => hused j (by omega) (by omega))

theorem exists_least_unused (can_open : String → Bool) (n : Nat)
    (hmiss : can_open (screenshot_filename n) = false) :
    ∃ k, k ≤ n ∧ can_open (screenshot_filename k) = false ∧
      ∀ j, j < k → can_open (screenshot_filename j) = true := by
  induction n using Nat.strong_induction_on with
  | _ n ih =>
    by_cases hall : ∀ j, j < n → can_open (screenshot_filename j) = true
    · exact ⟨n, Nat.le_refl _, hmiss, hall⟩
    · push_neg at hall
      obtain ⟨j, hj, hjm⟩ := hall
      obtain ⟨k, hk, hkm, hkl⟩ := ih j hj (by simpa using hjm)
      exact ⟨k, by omega, hkm, hkl⟩

/-- C7 (as the code has it): whenever some `Screenshot<n>.jpg` with `0 ≤ n ≤ INT_MAX`
cannot be opened for reading, `screenshot` saves to `Screenshot<k>.jpg` for the least `k`
whose file cannot be opened. -/
theorem screenshot_first_unused (can_open : String → Bool) (n : Nat) (hn : n ≤ INT_MAX)
    (hmiss : can_open (screenshot_filename n) = false) :
    ∃ k, k ≤ n ∧ screenshot can_open = .ok (screenshot_filename k) ∧
      can_open (screenshot_filename k) = false ∧
      ∀ j, j < k → can_open (screenshot_filename j) = true := by
  obtain ⟨k, hk, hkm, hkl⟩ := exists_least_unused can_open n hmiss
  refine ⟨k, hk, ?_, hkm, hkl⟩
  have h := find_unused_index_least can_open (INT_MAX + 1) 0 k (Nat.zero_le _) (by omega) hkm
    (fun j _ hj => hkl j hj)
  simp [screenshot, h]

/-- C7 with `Screenshot0.jpg` ... `Screenshot4.jpg` present: the capture goes to
`Screenshot5.jpg`. -/
theorem screenshot_first_unused_witness :
    screenshot five_screenshots = .ok "Screenshot5.jpg" := by
  obtain ⟨k, hk, hres, hfree, _⟩ :=
    screenshot_first_unused five_screenshots 5 (by decide) (by decide)
  rw [hres]
  interval_cases k
  · exact absurd hfree (by decide)
  · exact absurd hfree (by decide)
  · exact absurd hfree (by decide)
  · exact absurd hfree (by decide)
  · exact absurd hfree (by decide)
  · rfl

theorem screenshot_filename_length_le (j : Nat) (h : j ≤ INT_MAX) :
    (screenshot_filename j).length ≤ 24 := by
  have hr := Nat.repr_length j 10 (by norm_num) (by simp only [INT_MAX] at h; omega)
  have hs : toString j = Nat.repr j := rfl
  simp only [screenshot_filename, String.length_append, hs]
  have h1 : "Screenshot".length = 10 := by decide
  have h2 : ".jpg".length = 4 := by decide
  omega

theorem screenshot_overflow (can_open : String → Bool)
    (hused : ∀ j, j ≤ INT_MAX → can_open (screenshot_filename j) = true) :
    screenshot can_open = .error .signed_overflow := by
  have h := find_unused_index_overflow can_open (INT_MAX + 1) 0
    (fun j _ hj => hused j (by omega))
  simp [screenshot, h]

/-- C7 as stated fails: in a directory where `Screenshot<n>.jpg` exists for every `n` up
to 9999999999 and `Screenshot10000000000.jpg` does not, the `int` counter of `screenshot`
overflows at `INT_MAX` and no file name `Screenshot10000000000.jpg` is produced. -/
theorem screenshot_overflow_counterexample :
    short_names_exist (screenshot_filename 10000000000) = false ∧
    (∀ j, j < 10000000000 → short_names_exist (screenshot_filename j) = true) ∧
    screenshot short_names_exist = .error .signed_overflow := by
  refine ⟨by decide, ?_, ?_⟩
  · intro j hj
    have hr := Nat.repr_length j 10 (by norm_num) (by omega)
    have hs : toString j = Nat.repr j := rfl
    have h1 : "Screenshot".length = 10 := by decide
    have h2 : ".jpg".length = 4 := by decide
    simp only [short_names_exist, screenshot_filename, String.length_append, hs,
      decide_eq_true_eq]
    omega
  · exact screenshot_overflow short_names_exist (fun j hj => by
      have := screenshot_filename_length_le j hj
      simpa [short_names_exist] using this)

/-! ## Claims on the Gaussian kernel -/

theorem gauss_weight_eq (k : ℕ) (x : ℝ) (hx : x * x = (k : ℝ)) :
    gauss_weight x = (1 / Real.sqrt (32 * Real.pi)) * Real.exp (-1 / 32) ^ k := by
  have h1 : -((x * x) / (2 * sigma * sigma)) = (k : ℝ) * (-1 / 32) := by
    rw [hx]; simp only [sigma]; ring
  have h2 : 2 * M_PI * sigma * sigma = 32 * Real.pi := by
    simp only [sigma, M_PI]; ring
  rw [gauss_weight, h1, h2, M_E, Real.exp_one_rpow, Real.exp_nat_mul]

theorem gauss_weight_sum_eq :
    gauss_weight_sum = (1 / Real.sqrt (32 * Real.pi)) *
      (1 + 2 * (Real.exp (-1 / 32) + Real.exp (-1 / 32) ^ 4 + Real.exp (-1 / 32) ^ 9 +
        Real.exp (-1 / 32) ^ 16 + Real.exp (-1 / 32) ^ 25)) := by
  simp only [gauss_weight_sum, calc_gauss_values, List.range_succ, List.range_zero,
    List.nil_append, List.map_append, List.map_cons, List.map_nil, List.sum_append,
    List.sum_cons, List.sum_nil, List.cons_append, List.map]
  rw [gauss_weight_eq 25 ((0 : ℕ) - 5 : ℝ) (by norm_num),
    gauss_weight_eq 16 ((1 : ℕ) - 5 : ℝ) (by norm_num),
    gauss_weight_eq 9 ((2 : ℕ) - 5 : ℝ) (by norm_num),
    gauss_weight_eq 4 ((3 : ℕ) - 5 : ℝ) (by norm_num),
    gauss_weight_eq 1 ((4 : ℕ) - 5 : ℝ) (by norm_num),
    gauss_weight_eq 0 ((5 : ℕ) - 5 : ℝ) (by norm_num),
    gauss_weight_eq 1 ((6 : ℕ) - 5 : ℝ) (by norm_num),
    gauss_weight_eq 4 ((7 : ℕ) - 5 : ℝ) (by norm_num),
    gauss_weight_eq 9 ((8 : ℕ) - 5 : ℝ) (by norm_num),
    gauss_weight_eq 16 ((9 : ℕ) - 5 : ℝ) (by norm_num),
    gauss_weight_eq 25 ((10 : ℕ) - 5 : ℝ) (by norm_num)]
  ring

theorem exp_neg_inv_32_bounds :
    (0.9692 : ℝ) ≤ Real.exp (-1 / 32) ∧ Real.exp (-1 / 32) ≤ 0.9693 := by
  have h := Real.exp_bound (x := -1 / 32) (by rw [abs_le]; constructor <;> norm_num)
    (n := 4) (by norm_num)
  simp only [Finset.sum_range_succ, Finset.sum_range_zero, Nat.factorial] at h
  rw [abs_le] at h
  have habs : |(-1 / 32 : ℝ)| = 1 / 32 := by
    rw [abs_of_nonpos (by norm_num)]; norm_num
  rw [habs] at h
  norm_num at h
  constructor <;> linarith [h.1, h.2]

theorem sqrt_32_pi_bounds :
    (10.026 : ℝ) ≤ Real.sqrt (32 * Real.pi) ∧ Real.sqrt (32 * Real.pi) ≤ 10.027 := by
  constructor
  · apply Real.le_sqrt_of_sq_le
    have := Real.pi_gt_d4
    norm_num at this ⊢
    linarith
  · rw [Real.sqrt_le_left (by norm_num)]
    have := Real.pi_lt_d4
    norm_num at this ⊢
    linarith

theorem gauss_weight_sum_bounds :
    (0.831 : ℝ) ≤ gauss_weight_sum ∧ gauss_weight_sum ≤ 0.833 := by
  obtain ⟨hq1, hq2⟩ := exp_neg_inv_32_bounds
  obtain ⟨hs1, hs2⟩ := sqrt_32_pi_bounds
  have hspos : (0 : ℝ) < Real.sqrt (32 * Real.pi) := by linarith
  have ha : (0 : ℝ) ≤ 0.9692 := by norm_num
  have hq0 : (0 : ℝ) ≤ Real.exp (-1 / 32) := (Real.exp_pos _).le
  have l4 := pow_le_pow_left₀ ha hq1 4
  have l9 := pow_le_pow_left₀ ha hq1 9
  have l16 := pow_le_pow_left₀ ha hq1 16
  have l25 := pow_le_pow_left₀ ha hq1 25
  have u4 := pow_le_pow_left₀ hq0 hq2 4
  have u9 := pow_le_pow_left₀ hq0 hq2 9
  have u16 := pow_le_pow_left₀ hq0 hq2 16
  have u25 := pow_le_pow_left₀ hq0 hq2 25
  norm_num at l4 l9 l16 l25 u4 u9 u16 u25
  rw [gauss_weight_sum_eq, one_div, inv_mul_eq_div]
  constructor
  · rw [le_div_iff₀ hspos]
    nlinarith
  · rw [div_le_iff₀ hspos]
    nlinarith

/-- C6 (as the code has it): `calc_gauss_values` uploads 11 pairs at the offsets
`-5, -4, ..., 5`, and the 11 weights, taken as exact real numbers, sum to approximately
0.832: the sum differs from 0.832 by at most 1e-3. -/
theorem gauss_weights_sum_near_0832 :
    calc_gauss_values.length = 11 ∧
    calc_gauss_values.map (fun v => v.1) = [-5, -4, -3, -2, -1, 0, 1, 2, 3, 4, 5] ∧
    |gauss_weight_sum - 0.832| ≤ 1 / 1000 := by
  refine ⟨by simp only [calc_gauss_values, List.length_map, List.length_range], ?_, ?_⟩
  · simp only [calc_gauss_values, List.range_succ, List.range_zero, List.nil_append,
      List.map_append, List.map_cons, List.map_nil, List.cons_append]
    norm_num
  · obtain ⟨h1, h2⟩ := gauss_weight_sum_bounds
    rw [abs_le]
    constructor <;> norm_num <;> linarith

/-- C6 as stated fails: the sum of the 11 weights is further than 1e-3 from 1. -/
theorem gauss_weights_sum_near_one_counterexample :
    ¬ (|gauss_weight_sum - 1| ≤ 1 / 1000) := by
  obtain ⟨_, h2⟩ := gauss_weight_sum_bounds
  intro h
  rw [abs_le] at h
  norm_num at h2
  linarith [h.1]

end GLMaze
